import Mathlib

/-!
Verification of the MindSearch streaming agent core
(`mindsearch/agent/streaming.py`).

The development shallowly embeds the turn-orchestration state machine:

* `AgentMessage` models `lagent.schema.AgentMessage` restricted to the
  fields the orchestrator reads (`sender`, `content`, `formatted`,
  `stream_state`); statuses are the integer values of lagent's
  `AgentStatusCode` / `ModelStatusCode` IntEnums.
* `Formatted` models the Python value of `message.formatted` as seen by
  the orchestrator: either not a dict (e.g. `None`), or a dict whose
  `"tool_type"` key is absent, or present with value `None` or a string.
* `mixinCall` models `StreamingAgentMixin.__call__` (hooks, the two
  memory updates, per-chunk relaying, the final yield).
* `forwardLoop` / `forward` model `StreamingAgentForInternLM.forward`:
  the inner agent's yields per turn are supplied as a script
  (`script : Nat → List AgentMessage`, one list per turn), the finish
  condition and the `getattr`-based executor registry are parameters.
  `forwardLoopAsync` / `forwardAsync` are the separate translation of
  `AsyncStreamingAgentForInternLM.forward` (lines 210-250), which is
  textually the same state machine with `await` at the suspension
  points.

Exceptions raised by the Python code (the `RuntimeError` for a missing
executor, and the `TypeError`/`KeyError` the subscript
`message.formatted["tool_type"]` raises when `formatted` is not a dict
or lacks the key) are modelled by the `Outcome.error` result; the
events yielded before the raise are kept, as a Python generator's
caller receives them.
-/

set_option autoImplicit false

namespace MindSearch

/-! ### Status codes (integer values of lagent's IntEnums) -/

namespace AgentStatusCode

def END : Int := 0

def STREAM_ING : Int := 1

def SESSION_READY : Int := 2

def PLUGIN_START : Int := 3

def PLUGIN_END : Int := 4

def PLUGIN_RETURN : Int := 5

def CODING : Int := 6

def CODE_END : Int := 7

def CODE_RETURN : Int := 8

end AgentStatusCode

namespace ModelStatusCode

def END : Int := 0

def STREAM_ING : Int := 1

end ModelStatusCode

/-! ### Data model -/

/-- The `"tool_type"` entry of a `formatted` dict: absent, or present with
value `None` (`val none`) or a string (`val (some s)`). -/
inductive ToolField where
  | absent : ToolField
  | val : Option String → ToolField
deriving Repr, DecidableEq

/-- `message.formatted` as the orchestrator inspects it: not a dict
(e.g. `None`), or a dict with its `"tool_type"` entry. -/
inductive Formatted where
  | notDict : Formatted
  | dict : ToolField → Formatted
deriving Repr, DecidableEq

/-- Python truthiness of `formatted.get("tool_type")`: a present,
non-empty string. -/
def ToolField.truthy : ToolField → Bool
  | .absent => false
  | .val none => false
  | .val (some s) => s ≠ ""

/-- `isinstance(message.formatted, dict) and message.formatted.get("tool_type")`. -/
def Formatted.toolTypeTruthy : Formatted → Bool
  | .notDict => false
  | .dict tf => tf.truthy

/-- `message.formatted["tool_type"] == "plugin"` (only reached when the
tool type is truthy). -/
def Formatted.toolTypeIsPlugin : Formatted → Bool
  | .dict (.val (some s)) => s = "plugin"
  | _ => false

/-- The fields of `lagent.schema.AgentMessage` the streaming core reads. -/
structure AgentMessage where
  sender : String
  content : String
  formatted : Formatted
  stream_state : Int
deriving Repr, DecidableEq

/-! ### Single-turn streaming agent mixin (`StreamingAgentMixin.__call__`) -/

/-- One item yielded by the wrapped `forward`: either an `AgentMessage`
(when an output format is configured) or a raw `(model_state, response)`
pair. -/
inductive ForwardItem where
  | msg : AgentMessage → ForwardItem
  | raw : Int → String → ForwardItem
deriving Repr, DecidableEq

/-- A registered hook, restricted to the two callbacks the mixin invokes.
`none` models a falsy (`None`) return, which leaves the message as is. -/
structure Hook where
  before_agent : List AgentMessage → Option (List AgentMessage)
  after_agent : AgentMessage → Option AgentMessage

/-- The `before_agent` hook pass: each hook sees a (deep copy of the)
current message tuple and may replace it. -/
def applyBefore (hooks : List Hook) (msgs : List AgentMessage) : List AgentMessage :=
  hooks.foldl (fun m h => (h.before_agent m).getD m) msgs

/-- The `after_agent` hook pass on the final response message. -/
def applyAfter (hooks : List Hook) (m : AgentMessage) : AgentMessage :=
  hooks.foldl (fun r h => (h.after_agent r).getD r) m

/-- Wrapping of one forward item into an `AgentMessage`
(`AgentMessage(sender=self.name, content=response, stream_state=model_state)`
for a raw pair, `formatted` left at its `None` default). -/
def toMessage (name : String) : ForwardItem → AgentMessage
  | .msg m => m
  | .raw state text => ⟨name, text, Formatted.notDict, state⟩

/-- `AgentMessage(sender=self.name, content="")`, the initial
`response_message`; `formatted` and `stream_state` keep their lagent
defaults (`None` and `END`). -/
def initialResponse (name : String) : AgentMessage :=
  ⟨name, "", Formatted.notDict, AgentStatusCode.END⟩

/-- The relay loop of `StreamingAgentMixin.__call__`: yields one copy per
forward item and returns the last `response_message` (the initial one if
the stream was empty). -/
def relayLoop (name : String) (resp : AgentMessage) :
    List ForwardItem → List AgentMessage × AgentMessage
  | [] => ([], resp)
  | item :: rest =>
    let r := toMessage name item
    let (ys, fin) := relayLoop name r rest
    (r :: ys, fin)

/-- Result of one mixin call: the yielded events, and the payload of each
`update_memory` call in order. -/
structure CallResult where
  yields : List AgentMessage
  memory_appends : List (List AgentMessage)
deriving Repr, DecidableEq

/-- `StreamingAgentMixin.__call__` (streaming.py lines 11-34): before
hooks, memory update with the input, the relay loop over the forward
items, memory update with the final response, after hooks, final yield. -/
def mixinCall (name : String) (hooks : List Hook) (items : List ForwardItem)
    (input : List AgentMessage) : CallResult :=
  let input' := applyBefore hooks input
  let (ys, fin) := relayLoop name (initialResponse name) items
  let fin' := applyAfter hooks fin
  ⟨ys ++ [fin'], [input', [fin]]⟩

/-- The relay loop of `AsyncStreamingAgentMixin.__call__` (lines 50-58),
translated separately from the async source. -/
def relayLoopAsync (name : String) (resp : AgentMessage) :
    List ForwardItem → List AgentMessage × AgentMessage
  | [] => ([], resp)
  | item :: rest =>
    let r := toMessage name item
    let (ys, fin) := relayLoopAsync name r rest
    (r :: ys, fin)

/-- `AsyncStreamingAgentMixin.__call__` (streaming.py lines 40-65). -/
def mixinCallAsync (name : String) (hooks : List Hook) (items : List ForwardItem)
    (input : List AgentMessage) : CallResult :=
  let input' := applyBefore hooks input
  let (ys, fin) := relayLoopAsync name (initialResponse name) items
  let fin' := applyAfter hooks fin
  ⟨ys ++ [fin'], [input', [fin]]⟩

/-! ### Turn orchestrator (`StreamingAgentForInternLM.forward`) -/

/-- The status assigned to one inner event (streaming.py lines 148-164):
truthy tool type with model-stream END carries `last_agent_state` over,
incremented exactly when it is `CODING` or `PLUGIN_START`; truthy tool
type mid-generation maps to `PLUGIN_START`/`CODING`; otherwise
`STREAM_ING`. -/
def assignStatus (last : Int) (m : AgentMessage) : Int :=
  if m.formatted.toolTypeTruthy then
    if m.stream_state = ModelStatusCode.END then
      last +
        (if last = AgentStatusCode.CODING ∨ last = AgentStatusCode.PLUGIN_START then 1 else 0)
    else
      if m.formatted.toolTypeIsPlugin then AgentStatusCode.PLUGIN_START
      else AgentStatusCode.CODING
  else
    AgentStatusCode.STREAM_ING

/-- Result of the inner `for message in self.agent(...)` loop: the events
yielded (already restamped), the loop variable `message` after the loop
(the input message when the inner stream was empty), and
`last_agent_state`. -/
structure InnerResult where
  events : List AgentMessage
  final : AgentMessage
  last : Int
deriving Repr, DecidableEq

/-- The inner event loop (streaming.py lines 147-166): restamp each inner
event, yield it, update `last_agent_state`. -/
def runInner (last : Int) (msg : AgentMessage) :
    List AgentMessage → InnerResult
  | [] => ⟨[], msg, last⟩
  | m :: rest =>
    let s := assignStatus last m
    let m' := { m with stream_state := s }
    let r := runInner s m' rest
    ⟨m' :: r.events, r.final, r.last⟩

/-- How the orchestration ends: the `return` after the `END` event, the
silent exhaustion of the `range(max_turn)` loop, or an uncaught
exception. -/
inductive Outcome where
  | finished : Outcome
  | exhausted : Outcome
  | error : String → Outcome
deriving Repr, DecidableEq

/-- Observable result of `forward`: the yielded events, how the
orchestration ended, how many turns were entered, and the executor
dispatches performed (tool type, message argument, session id). -/
structure RunResult where
  events : List AgentMessage
  outcome : Outcome
  turnsUsed : Nat
  dispatches : List (String × AgentMessage × Nat)
deriving Repr, DecidableEq

/-- The orchestrator's collaborators: the finish condition and the
`getattr(self, name)` executor lookup (an executor is
`execute(event, session_id) -> Event`). -/
structure OrchConfig where
  finish_condition : AgentMessage → Bool
  attrs : String → Option (AgentMessage → Nat → AgentMessage)

/-- The turn loop of `StreamingAgentForInternLM.forward` (streaming.py
lines 145-182). `script turn` is the sequence of events the inner agent
call yields on that turn; `fuel` is the number of `range(max_turn)`
iterations left. After the inner loop: the finish condition ends the
orchestration with an `END`-stamped event; otherwise
`message.formatted["tool_type"]` is subscripted unconditionally (a
`TypeError` when `formatted` is not a dict, a `KeyError` when the key is
absent), a truthy tool type dispatches to the
`getattr(self, tool_type + "_executor")` capability (a `RuntimeError`
when it is missing) and feeds the restamped tool return to the next
turn, and a falsy tool type restamps to `STREAM_ING` and feeds the same
event forward. -/
def forwardLoop (cfg : OrchConfig) (sid : Nat) (script : Nat → List AgentMessage) :
    Nat → Nat → AgentMessage → RunResult
  | 0, _, _ => ⟨[], .exhausted, 0, []⟩
  | fuel + 1, turn, msg =>
    let r := runInner AgentStatusCode.SESSION_READY msg (script turn)
    if cfg.finish_condition r.final then
      ⟨r.events ++ [{ r.final with stream_state := AgentStatusCode.END }], .finished, 1, []⟩
    else
      match r.final.formatted with
      | .notDict => ⟨r.events, .error "TypeError: NoneType is not subscriptable", 1, []⟩
      | .dict .absent => ⟨r.events, .error "KeyError: tool_type", 1, []⟩
      | .dict (.val v) =>
        if (ToolField.val v).truthy then
          let s := v.getD ""
          match cfg.attrs (s ++ "_executor") with
          | none => ⟨r.events, .error ("No available " ++ s ++ " executor"), 1, []⟩
          | some ex =>
            let ret := { ex r.final sid with stream_state := r.final.stream_state + 1 }
            let rest := forwardLoop cfg sid script fuel (turn + 1) ret
            ⟨r.events ++ ret :: rest.events, rest.outcome, rest.turnsUsed + 1,
              (s, r.final, sid) :: rest.dispatches⟩
        else
          let m' := { r.final with stream_state := AgentStatusCode.STREAM_ING }
          let rest := forwardLoop cfg sid script fuel (turn + 1) m'
          ⟨r.events ++ m' :: rest.events, rest.outcome, rest.turnsUsed + 1, rest.dispatches⟩

/-- `StreamingAgentForInternLM.forward` on an `AgentMessage` input. -/
def forward (cfg : OrchConfig) (sid : Nat) (script : Nat → List AgentMessage)
    (max_turn : Nat) (msg : AgentMessage) : RunResult :=
  forwardLoop cfg sid script max_turn 0 msg

/-- The turn loop of `AsyncStreamingAgentForInternLM.forward`
(streaming.py lines 213-250), translated separately from the async
source; the state machine is textually the one of `forwardLoop`, with
`await` at the executor call. -/
def forwardLoopAsync (cfg : OrchConfig) (sid : Nat) (script : Nat → List AgentMessage) :
    Nat → Nat → AgentMessage → RunResult
  | 0, _, _ => ⟨[], .exhausted, 0, []⟩
  | fuel + 1, turn, msg =>
    let r := runInner AgentStatusCode.SESSION_READY msg (script turn)
    if cfg.finish_condition r.final then
      ⟨r.events ++ [{ r.final with stream_state := AgentStatusCode.END }], .finished, 1, []⟩
    else
      match r.final.formatted with
      | .notDict => ⟨r.events, .error "TypeError: NoneType is not subscriptable", 1, []⟩
      | .dict .absent => ⟨r.events, .error "KeyError: tool_type", 1, []⟩
      | .dict (.val v) =>
        if (ToolField.val v).truthy then
          let s := v.getD ""
          match cfg.attrs (s ++ "_executor") with
          | none => ⟨r.events, .error ("No available " ++ s ++ " executor"), 1, []⟩
          | some ex =>
            let ret := { ex r.final sid with stream_state := r.final.stream_state + 1 }
            let rest := forwardLoopAsync cfg sid script fuel (turn + 1) ret
            ⟨r.events ++ ret :: rest.events, rest.outcome, rest.turnsUsed + 1,
              (s, r.final, sid) :: rest.dispatches⟩
        else
          let m' := { r.final with stream_state := AgentStatusCode.STREAM_ING }
          let rest := forwardLoopAsync cfg sid script fuel (turn + 1) m'
          ⟨r.events ++ m' :: rest.events, rest.outcome, rest.turnsUsed + 1, rest.dispatches⟩

/-- `AsyncStreamingAgentForInternLM.forward` on an `AgentMessage` input. -/
def forwardAsync (cfg : OrchConfig) (sid : Nat) (script : Nat → List AgentMessage)
    (max_turn : Nat) (msg : AgentMessage) : RunResult :=
  forwardLoopAsync cfg sid script max_turn 0 msg

/-! ### The status rule as the spec words it -/

/-- The per-event status rule written from the spec's words (§4.2 step 2),
to be compared with `assignStatus`, which is translated from the code. -/
def specAssign (last : Int) (m : AgentMessage) : Int :=
  if m.formatted.toolTypeTruthy then
    if m.stream_state = ModelStatusCode.END then
      if last = AgentStatusCode.CODING ∨ last = AgentStatusCode.PLUGIN_START then last + 1
      else last
    else
      if m.formatted.toolTypeIsPlugin then AgentStatusCode.PLUGIN_START
      else AgentStatusCode.CODING
  else
    AgentStatusCode.STREAM_ING

/-- The stream of restamped events the spec's rule produces, threading
`last_status` through the turn. -/
def specYields : Int → List AgentMessage → List AgentMessage
  | _, [] => []
  | last, m :: rest =>
    let s := specAssign last m
    { m with stream_state := s } :: specYields s rest

/-! ### Derived description of the mixin's memory effect -/

/-- The terminal `response_message` of one mixin call: the last forward
item (wrapped), or the initial empty response when the stream was
empty. -/
def lastResponse (name : String) (items : List ForwardItem) : AgentMessage :=
  (items.map (toMessage name)).getLastD (initialResponse name)

/-! ### Concrete fixtures

Closed inputs used to evaluate the model: the two-turn scenario of
spec §8 and the inputs of the counterexamples. -/

/-- The user input message starting a session. -/
def scenUser : AgentMessage :=
  ⟨"user", "question", Formatted.notDict, AgentStatusCode.END⟩

/-- Turn 1, first chunk: plain text, no tool type decoded yet. -/
def scenE1 : AgentMessage :=
  ⟨"assistant", "thinking", Formatted.notDict, ModelStatusCode.STREAM_ING⟩

/-- Turn 1, second chunk: a plugin call being composed, generation still
in progress. -/
def scenE2 : AgentMessage :=
  ⟨"assistant", "plan", Formatted.dict (.val (some "plugin")), ModelStatusCode.STREAM_ING⟩

/-- Turn 1, final event: the plugin call, model-stream end signaled. -/
def scenE3 : AgentMessage :=
  ⟨"assistant", "plan done", Formatted.dict (.val (some "plugin")), ModelStatusCode.END⟩

/-- Turn 2, final event: a terminal answer with no tool type. -/
def scenAnswer : AgentMessage :=
  ⟨"assistant", "final answer", Formatted.notDict, ModelStatusCode.END⟩

/-- The event the plugin executor returns. -/
def scenToolReturn : AgentMessage :=
  ⟨"plugin_executor", "search results", Formatted.dict (.val none), ModelStatusCode.END⟩

/-- The scripted inner-agent yields of the two-turn session of spec §8. -/
def scenScript : Nat → List AgentMessage
  | 0 => [scenE1, scenE2, scenE3]
  | _ => [scenAnswer]

/-- The scripted plugin executor of the §8 scenario. -/
def scenExec : AgentMessage → Nat → AgentMessage :=
  fun _ _ => scenToolReturn

/-- Finish condition and executor registry of the §8 scenario: finished
when no tool type is decoded; only `plugin_executor` is registered. -/
def scenCfg : OrchConfig :=
  ⟨fun m => !m.formatted.toolTypeTruthy,
   fun n => if n = "plugin_executor" then some scenExec else none⟩

/-- A final event whose structured fields map `tool_type` to a falsy
value. -/
def cexFalsyEvent : AgentMessage :=
  ⟨"assistant", "text", Formatted.dict (.val none), ModelStatusCode.END⟩

/-- A config whose finish condition never holds and whose registry is
empty. -/
def emptyCfg : OrchConfig :=
  ⟨fun _ => false, fun _ => none⟩

/-- A final event whose structured fields are absent (`formatted` is
`None`): the Output Parser returned nothing. -/
def cexPlainEvent : AgentMessage :=
  ⟨"assistant", "hi", Formatted.notDict, ModelStatusCode.STREAM_ING⟩

/-- A first inner event that already carries a truthy tool type with
generation ended: the carry-over keeps `last_status = SESSION_READY`. -/
def cexCarryEvent : AgentMessage :=
  ⟨"assistant", "x", Formatted.dict (.val (some "plugin")), ModelStatusCode.END⟩

/-- A hook whose `after_agent` replaces the output message. -/
def cexAfterHook : Hook :=
  ⟨fun _ => none, fun _ => some ⟨"other", "replaced", Formatted.notDict, AgentStatusCode.END⟩⟩

/-! ### Basic lemmas about the inner loop -/

theorem assignStatus_eq_specAssign (last : Int) (m : AgentMessage) :
    assignStatus last m = specAssign last m := by
  unfold assignStatus specAssign
  by_cases h : last = AgentStatusCode.CODING ∨ last = AgentStatusCode.PLUGIN_START <;>
    simp [h]

theorem runInner_events_spec (last : Int) (msg : AgentMessage)
    (inner : List AgentMessage) :
    (runInner last msg inner).events = specYields last inner := by
  induction inner generalizing last msg with
  | nil => rfl
  | cons m rest ih =>
    simp only [runInner, specYields, assignStatus_eq_specAssign]
    exact congrArg _ (ih _ _)

theorem forwardLoop_events_take (cfg : OrchConfig) (sid : Nat)
    (script : Nat → List AgentMessage) (fuel turn : Nat) (msg : AgentMessage) :
    ∃ rest, (forwardLoop cfg sid script (fuel + 1) turn msg).events
      = (runInner AgentStatusCode.SESSION_READY msg (script turn)).events ++ rest := by
  simp only [forwardLoop]
  split
  · exact ⟨_, rfl⟩
  · split
    · exact ⟨[], (List.append_nil _).symm⟩
    · exact ⟨[], (List.append_nil _).symm⟩
    · split
      · split
        · exact ⟨[], (List.append_nil _).symm⟩
        · exact ⟨_, rfl⟩
      · exact ⟨_, rfl⟩

/-! ### Claim theorems -/

/-- C1: during a turn the orchestrator assigns each inner event's status by
exactly the spec's rule — truthy tool type with generation ended carries
`last_status` over, incremented iff it is `CODING` or `PLUGIN_START`;
truthy tool type mid-generation gives `PLUGIN_START` for `"plugin"` and
`CODING` otherwise; no truthy tool type gives `STREAM_ING` — threading
`last_status` from `SESSION_READY` through the yields of a turn, and the
turn loop yields exactly that restamped stream as the prefix of its
output. -/
theorem status_rule_matches_spec :
    (∀ last m, assignStatus last m = specAssign last m) ∧
    (∀ msg inner, (runInner AgentStatusCode.SESSION_READY msg inner).events
      = specYields AgentStatusCode.SESSION_READY inner) ∧
    (∀ cfg sid script fuel turn msg, ∃ rest,
      (forwardLoop cfg sid script (fuel + 1) turn msg).events
        = specYields AgentStatusCode.SESSION_READY (script turn) ++ rest) := by
  refine ⟨assignStatus_eq_specAssign,
    fun msg inner => runInner_events_spec _ msg inner,
    fun cfg sid script fuel turn msg => ?_⟩
  obtain ⟨rest, h⟩ := forwardLoop_events_take cfg sid script fuel turn msg
  exact ⟨rest, by rw [h, runInner_events_spec]⟩

/-- C2: a turn whose final event satisfies the finish condition yields that
event restamped `END` and the orchestration returns: no tool dispatch, no
further turn, and no event after the `END` one. -/
theorem finish_yields_end_and_stops (cfg : OrchConfig) (sid : Nat)
    (script : Nat → List AgentMessage) (fuel turn : Nat) (msg : AgentMessage)
    (h : cfg.finish_condition
      (runInner AgentStatusCode.SESSION_READY msg (script turn)).final = true) :
    forwardLoop cfg sid script (fuel + 1) turn msg =
      ⟨(runInner AgentStatusCode.SESSION_READY msg (script turn)).events
          ++ [{ (runInner AgentStatusCode.SESSION_READY msg (script turn)).final with
                stream_state := AgentStatusCode.END }],
        Outcome.finished, 1, []⟩ := by
  simp only [forwardLoop, h, if_true]

/-- Witness for C2 at a one-event turn whose finish condition holds. -/
theorem finish_yields_end_and_stops_witness :
    (⟨fun _ => true, fun _ => none⟩ : OrchConfig).finish_condition
        (runInner AgentStatusCode.SESSION_READY scenUser ((fun _ => [scenE1]) (0 : Nat))).final
        = true ∧
    forwardLoop ⟨fun _ => true, fun _ => none⟩ 0 (fun _ => [scenE1]) 3 0 scenUser
      = ⟨[{ scenE1 with stream_state := AgentStatusCode.STREAM_ING },
          { scenE1 with stream_state := AgentStatusCode.END }],
          Outcome.finished, 1, []⟩ :=
  ⟨rfl,
    (finish_yields_end_and_stops ⟨fun _ => true, fun _ => none⟩ 0 (fun _ => [scenE1])
      2 0 scenUser rfl).trans (by decide)⟩

/-- C3: a final event with truthy tool type, finish condition false, and no
`"<tool_type>_executor"` entry in the registry makes the orchestrator
raise the `RuntimeError` uncaught: the turn's events are followed by
nothing, no dispatch happens, and no further turn runs. -/
theorem no_executor_fatal (cfg : OrchConfig) (sid : Nat)
    (script : Nat → List AgentMessage) (fuel turn : Nat) (msg : AgentMessage)
    (r : InnerResult) (s : String)
    (hr : r = runInner AgentStatusCode.SESSION_READY msg (script turn))
    (hfin : cfg.finish_condition r.final = false)
    (hfmt : r.final.formatted = Formatted.dict (ToolField.val (some s)))
    (hs : s ≠ "")
    (hex : cfg.attrs (s ++ "_executor") = none) :
    forwardLoop cfg sid script (fuel + 1) turn msg
      = ⟨r.events, Outcome.error ("No available " ++ s ++ " executor"), 1, []⟩ := by
  subst hr
  simp only [forwardLoop, hfin, Bool.false_eq_true, if_false, hfmt, ToolField.truthy]
  simp [hs, hex]

/-- Witness for C3: a turn ending in a `"plugin"` tool call against an
empty registry. -/
theorem no_executor_fatal_witness :
    emptyCfg.finish_condition
        (runInner AgentStatusCode.SESSION_READY scenUser ((fun _ => [scenE3]) (0 : Nat))).final
        = false ∧
    forwardLoop emptyCfg 0 (fun _ => [scenE3]) 4 0 scenUser
      = ⟨[{ scenE3 with stream_state := AgentStatusCode.SESSION_READY }],
          Outcome.error "No available plugin executor", 1, []⟩ :=
  ⟨rfl,
    (no_executor_fatal emptyCfg 0 (fun _ => [scenE3]) 3 0 scenUser _ "plugin"
      rfl rfl (by decide) (by decide) rfl).trans (by decide)⟩

/-- C4: a final event with truthy tool type, finish condition false, and a
registered executor makes the orchestrator invoke the executor with that
event and the session id, restamp the returned event to the final event's
just-assigned status plus one, yield it, and use it as the next turn's
input; on the §8 two-turn scenario the yielded statuses are
`STREAM_ING, PLUGIN_START, PLUGIN_START+1, PLUGIN_START+2, STREAM_ING,
END` with exactly one `"plugin"` dispatch. -/
theorem executor_dispatch_and_scenario :
    (∀ (cfg : OrchConfig) (sid : Nat) (script : Nat → List AgentMessage)
        (fuel turn : Nat) (msg : AgentMessage) (r : InnerResult) (s : String)
        (ex : AgentMessage → Nat → AgentMessage) (ret : AgentMessage),
      r = runInner AgentStatusCode.SESSION_READY msg (script turn) →
      cfg.finish_condition r.final = false →
      r.final.formatted = Formatted.dict (ToolField.val (some s)) →
      s ≠ "" →
      cfg.attrs (s ++ "_executor") = some ex →
      ret = { ex r.final sid with stream_state := r.final.stream_state + 1 } →
      forwardLoop cfg sid script (fuel + 1) turn msg
        = ⟨r.events ++ ret :: (forwardLoop cfg sid script fuel (turn + 1) ret).events,
           (forwardLoop cfg sid script fuel (turn + 1) ret).outcome,
           (forwardLoop cfg sid script fuel (turn + 1) ret).turnsUsed + 1,
           (s, r.final, sid) :: (forwardLoop cfg sid script fuel (turn + 1) ret).dispatches⟩) ∧
    ((forward scenCfg 0 scenScript 2 scenUser).events.map (fun e => e.stream_state)
        = [AgentStatusCode.STREAM_ING, AgentStatusCode.PLUGIN_START,
           AgentStatusCode.PLUGIN_START + 1, AgentStatusCode.PLUGIN_START + 2,
           AgentStatusCode.STREAM_ING, AgentStatusCode.END] ∧
      (forward scenCfg 0 scenScript 2 scenUser).dispatches
        = [("plugin", { scenE3 with stream_state := AgentStatusCode.PLUGIN_START + 1 }, 0)] ∧
      (forward scenCfg 0 scenScript 2 scenUser).outcome = Outcome.finished) := by
  constructor
  · intro cfg sid script fuel turn msg r s ex ret hr hfin hfmt hs hex hret
    subst hr
    subst hret
    simp only [forwardLoop, hfin, Bool.false_eq_true, if_false, hfmt, ToolField.truthy]
    simp [hs, hex]
  · exact ⟨by decide, by decide, by decide⟩

/-- Witness for C4: the dispatch theorem applied at turn 1 of the §8
scenario. -/
theorem executor_dispatch_witness :
    scenCfg.finish_condition
        (runInner AgentStatusCode.SESSION_READY scenUser (scenScript 0)).final = false ∧
    scenCfg.attrs ("plugin" ++ "_executor") = some scenExec ∧
    forwardLoop scenCfg 0 scenScript 2 0 scenUser
      = ⟨[{ scenE1 with stream_state := AgentStatusCode.STREAM_ING },
          { scenE2 with stream_state := AgentStatusCode.PLUGIN_START },
          { scenE3 with stream_state := AgentStatusCode.PLUGIN_END },
          { scenToolReturn with stream_state := AgentStatusCode.PLUGIN_RETURN },
          { scenAnswer with stream_state := AgentStatusCode.STREAM_ING },
          { scenAnswer with stream_state := AgentStatusCode.END }],
          Outcome.finished, 2,
          [("plugin", { scenE3 with stream_state := AgentStatusCode.PLUGIN_END }, 0)]⟩ :=
  ⟨rfl, rfl,
    (executor_dispatch_and_scenario.1 scenCfg 0 scenScript 1 0 scenUser _ "plugin" scenExec _
      rfl rfl (by decide) (by decide) rfl rfl).trans (by decide)⟩

/-- C5 counterexample: a turn whose final event has no structured fields
(`formatted` is `None`) and whose finish condition fails does not feed the
event forward silently — the unconditional subscript
`message.formatted["tool_type"]` raises, after the inner events were
yielded restamped `STREAM_ING`. -/
theorem parse_failure_counterexample :
    (forward emptyCfg 0 (fun _ => [cexPlainEvent]) 3 scenUser).outcome
        = Outcome.error "TypeError: NoneType is not subscriptable" ∧
    (forward emptyCfg 0 (fun _ => [cexPlainEvent]) 3 scenUser).events.map
        (fun e => e.stream_state)
        = [AgentStatusCode.STREAM_ING] := by
  exact ⟨by decide, by decide⟩

/-- C5 (amended): during the turn, events without a truthy tool type are
stamped `STREAM_ING` and yielded; but after the inner stream ends, a final
event whose structured fields are absent (not a mapping) raises a
`TypeError`, one whose mapping lacks the `tool_type` key raises a
`KeyError` — ending the session with no further events — and only a final
event whose mapping holds a falsy `tool_type` is stamped `STREAM_ING`,
yielded, and fed forward as the next turn's message without error. -/
theorem parse_failure_behavior :
    (∀ (cfg : OrchConfig) (sid : Nat) (script : Nat → List AgentMessage)
        (fuel turn : Nat) (msg : AgentMessage) (r : InnerResult),
      r = runInner AgentStatusCode.SESSION_READY msg (script turn) →
      cfg.finish_condition r.final = false →
      r.final.formatted = Formatted.notDict →
      forwardLoop cfg sid script (fuel + 1) turn msg
        = ⟨r.events, Outcome.error "TypeError: NoneType is not subscriptable", 1, []⟩) ∧
    (∀ (cfg : OrchConfig) (sid : Nat) (script : Nat → List AgentMessage)
        (fuel turn : Nat) (msg : AgentMessage) (r : InnerResult),
      r = runInner AgentStatusCode.SESSION_READY msg (script turn) →
      cfg.finish_condition r.final = false →
      r.final.formatted = Formatted.dict ToolField.absent →
      forwardLoop cfg sid script (fuel + 1) turn msg
        = ⟨r.events, Outcome.error "KeyError: tool_type", 1, []⟩) ∧
    (∀ (cfg : OrchConfig) (sid : Nat) (script : Nat → List AgentMessage)
        (fuel turn : Nat) (msg : AgentMessage) (r : InnerResult)
        (v : Option String) (m : AgentMessage),
      r = runInner AgentStatusCode.SESSION_READY msg (script turn) →
      cfg.finish_condition r.final = false →
      r.final.formatted = Formatted.dict (ToolField.val v) →
      (ToolField.val v).truthy = false →
      m = { r.final with stream_state := AgentStatusCode.STREAM_ING } →
      forwardLoop cfg sid script (fuel + 1) turn msg
        = ⟨r.events ++ m :: (forwardLoop cfg sid script fuel (turn + 1) m).events,
           (forwardLoop cfg sid script fuel (turn + 1) m).outcome,
           (forwardLoop cfg sid script fuel (turn + 1) m).turnsUsed + 1,
           (forwardLoop cfg sid script fuel (turn + 1) m).dispatches⟩) := by
  refine ⟨?_, ?_, ?_⟩
  · intro cfg sid script fuel turn msg r hr hfin hfmt
    subst hr
    simp only [forwardLoop, hfin, Bool.false_eq_true, if_false, hfmt]
  · intro cfg sid script fuel turn msg r hr hfin hfmt
    subst hr
    simp only [forwardLoop, hfin, Bool.false_eq_true, if_false, hfmt]
  · intro cfg sid script fuel turn msg r v m hr hfin hfmt hv hm
    subst hr
    subst hm
    simp only [forwardLoop, hfin, Bool.false_eq_true, if_false, hfmt, hv]

/-- Witness for C5 (amended): the `TypeError` conjunct on a plain-text
final event and the falsy-tool-type conjunct on a dict-valued one. -/
theorem parse_failure_behavior_witness :
    emptyCfg.finish_condition
        (runInner AgentStatusCode.SESSION_READY scenUser ((fun _ => [cexPlainEvent]) (0 : Nat))).final
        = false ∧
    forwardLoop emptyCfg 0 (fun _ => [cexPlainEvent]) 3 0 scenUser
      = ⟨[{ cexPlainEvent with stream_state := AgentStatusCode.STREAM_ING }],
          Outcome.error "TypeError: NoneType is not subscriptable", 1, []⟩ ∧
    forwardLoop emptyCfg 0 (fun _ => [cexFalsyEvent]) 1 0 scenUser
      = ⟨[{ cexFalsyEvent with stream_state := AgentStatusCode.STREAM_ING },
          { cexFalsyEvent with stream_state := AgentStatusCode.STREAM_ING }],
          Outcome.exhausted, 1, []⟩ :=
  ⟨rfl,
    (parse_failure_behavior.1 emptyCfg 0 (fun _ => [cexPlainEvent]) 2 0 scenUser _
      rfl rfl (by decide)).trans (by decide),
    (parse_failure_behavior.2.2 emptyCfg 0 (fun _ => [cexFalsyEvent]) 0 0 scenUser _
      none _ rfl rfl (by decide) (by decide) rfl).trans (by decide)⟩

/-! ### Lemmas about the mixin's relay loop -/

theorem relayLoop_yields (name : String) :
    ∀ (items : List ForwardItem) (resp : AgentMessage),
      (relayLoop name resp items).1 = items.map (toMessage name)
  | [], _ => rfl
  | _ :: rest, _ => by
    simp only [relayLoop, List.map]
    exact congrArg _ (relayLoop_yields name rest _)

theorem relayLoop_final (name : String) :
    ∀ (items : List ForwardItem) (resp : AgentMessage),
      (relayLoop name resp items).2 = (items.map (toMessage name)).getLastD resp
  | [], _ => rfl
  | item :: rest, resp => by
    simp only [relayLoop, List.map, List.getLastD_cons]
    exact relayLoop_final name rest _

theorem relayLoopAsync_eq (name : String) :
    ∀ (items : List ForwardItem) (resp : AgentMessage),
      relayLoopAsync name resp items = relayLoop name resp items
  | [], _ => rfl
  | _ :: rest, _ => by
    simp only [relayLoopAsync, relayLoop]
    rw [relayLoopAsync_eq name rest _]

theorem applyAfter_of_none (hooks : List Hook)
    (h : ∀ hk ∈ hooks, ∀ m, hk.after_agent m = none) (m : AgentMessage) :
    applyAfter hooks m = m := by
  induction hooks generalizing m with
  | nil => rfl
  | cons hk rest ih =>
    have h1 : hk.after_agent m = none := h hk (List.mem_cons_self hk rest) m
    simp only [applyAfter, List.foldl, h1, Option.getD_none]
    exact ih (fun x hx m' => h x (List.mem_cons_of_mem hk hx) m') m

/-- C6 counterexample: a single mixin call performs two memory updates, not
one — the input is appended before the model stream is consumed, the
terminal message after. -/
theorem memory_once_counterexample :
    ((mixinCall "agent" [] [ForwardItem.raw ModelStatusCode.END "hello"]
        [scenUser]).memory_appends).length = 2 ∧
    ((mixinCall "agent" [] [ForwardItem.raw ModelStatusCode.END "hello"]
        [scenUser]).memory_appends).length ≠ 1 := by
  exact ⟨by decide, by decide⟩

/-- C6 (amended): every mixin call mutates Session Memory exactly twice —
one append of the hook-processed input before the stream is consumed and
one append of the terminal message after the stream is exhausted. The
second append holds the pre-after-hook terminal message, so partial
chunks are never separately persisted and hook-produced replacements are
never written; the async mixin appends the same payloads. -/
theorem memory_two_appends (name : String) (hooks : List Hook)
    (items : List ForwardItem) (input : List AgentMessage) :
    (mixinCall name hooks items input).memory_appends
        = [applyBefore hooks input, [lastResponse name items]] ∧
    (mixinCallAsync name hooks items input).memory_appends
        = [applyBefore hooks input, [lastResponse name items]] ∧
    ((mixinCall name hooks items input).memory_appends).length = 2 := by
  refine ⟨?_, ?_, ?_⟩
  · simp only [mixinCall, lastResponse, relayLoop_final]
  · simp only [mixinCallAsync, lastResponse, relayLoopAsync_eq, relayLoop_final]
  · simp only [mixinCall, List.length]

/-- C10 counterexample: with an after-hook that replaces the output, a call
whose model stream produced one item yields two different events — the
terminal message is observed once, not twice. -/
theorem terminal_observed_once_counterexample :
    (mixinCall "agent" [cexAfterHook] [ForwardItem.raw ModelStatusCode.END "done"] []).yields
        = [⟨"agent", "done", Formatted.notDict, ModelStatusCode.END⟩,
           ⟨"other", "replaced", Formatted.notDict, AgentStatusCode.END⟩] ∧
    (⟨"agent", "done", Formatted.notDict, ModelStatusCode.END⟩ : AgentMessage)
        ≠ ⟨"other", "replaced", Formatted.notDict, AgentStatusCode.END⟩ := by
  exact ⟨by decide, by decide⟩

/-- C10 (amended): a call whose stream produced `N` items always yields
exactly `N + 1` events; when no after-hook replaces the output, the empty
stream yields exactly one event — the agent-sender, empty-content initial
response — and a nonempty stream's final yield repeats the terminal
message already yielded for the last item. -/
theorem yield_count_and_terminal :
    (∀ (name : String) (hooks : List Hook) (items : List ForwardItem)
        (input : List AgentMessage),
      (mixinCall name hooks items input).yields.length = items.length + 1) ∧
    (∀ (name : String) (hooks : List Hook) (input : List AgentMessage),
      (∀ hk ∈ hooks, ∀ m, hk.after_agent m = none) →
      (mixinCall name hooks [] input).yields = [initialResponse name] ∧
      (initialResponse name).sender = name ∧ (initialResponse name).content = "") ∧
    (∀ (name : String) (hooks : List Hook) (items : List ForwardItem)
        (input : List AgentMessage),
      items ≠ [] →
      (∀ hk ∈ hooks, ∀ m, hk.after_agent m = none) →
      (mixinCall name hooks items input).yields
          = items.map (toMessage name) ++ [lastResponse name items] ∧
      (items.map (toMessage name)).getLast? = some (lastResponse name items)) := by
  refine ⟨?_, ?_, ?_⟩
  · intro name hooks items input
    simp [mixinCall, relayLoop_yields]
  · intro name hooks input h
    exact ⟨by simp [mixinCall, relayLoop, applyAfter_of_none hooks h], rfl, rfl⟩
  · intro name hooks items input hne h
    have hmapne : items.map (toMessage name) ≠ [] := by
      simpa using hne
    constructor
    · simp [mixinCall, relayLoop_yields, relayLoop_final, lastResponse,
        applyAfter_of_none hooks h]
    · rw [lastResponse, List.getLastD_eq_getLast?]
      cases hml : (items.map (toMessage name)).getLast? with
      | none => exact absurd (List.getLast?_eq_none_iff.mp hml) hmapne
      | some x => rfl

/-- Witness for C10 (amended): a hook-free call over one raw item yields
the wrapped item twice, and a hook-free call over no items yields the
initial response alone. -/
theorem yield_count_and_terminal_witness :
    (mixinCall "agent" [] [ForwardItem.raw ModelStatusCode.END "done"] []).yields
        = [⟨"agent", "done", Formatted.notDict, ModelStatusCode.END⟩,
           ⟨"agent", "done", Formatted.notDict, ModelStatusCode.END⟩] ∧
    (mixinCall "agent" [] ([] : List ForwardItem) []).yields
        = [⟨"agent", "", Formatted.notDict, AgentStatusCode.END⟩] :=
  ⟨((yield_count_and_terminal.2.2 "agent" [] [ForwardItem.raw ModelStatusCode.END "done"] []
      (by decide) (by simp)).1).trans (by decide),
    ((yield_count_and_terminal.2.1 "agent" [] [] (by simp)).1).trans (by decide)⟩

/-! ### Sync/async agreement -/

theorem forwardLoopAsync_eq_forwardLoop (cfg : OrchConfig) (sid : Nat)
    (script : Nat → List AgentMessage) (fuel : Nat) :
    ∀ (turn : Nat) (msg : AgentMessage),
      forwardLoopAsync cfg sid script fuel turn msg
        = forwardLoop cfg sid script fuel turn msg := by
  induction fuel with
  | zero => intro turn msg; rfl
  | succ n ih =>
    intro turn msg
    simp only [forwardLoopAsync, forwardLoop]
    split
    · rfl
    · split
      · rfl
      · rfl
      · split
        · split
          · rfl
          · rw [ih]
        · rw [ih]

/-- C8: with the same scripted inner-agent outputs, finish condition,
executor registry, session id and input, the synchronous and the
asynchronous orchestrators produce identical results — the same events
(status, content, structured fields) at every position, the same outcome,
and the same dispatches; the async mixin likewise reproduces the sync
mixin's yields and memory effects. -/
theorem sync_async_identical :
    (∀ (cfg : OrchConfig) (sid : Nat) (script : Nat → List AgentMessage)
        (fuel turn : Nat) (msg : AgentMessage),
      forwardLoopAsync cfg sid script fuel turn msg
        = forwardLoop cfg sid script fuel turn msg) ∧
    (∀ (cfg : OrchConfig) (sid : Nat) (script : Nat → List AgentMessage)
        (max_turn : Nat) (msg : AgentMessage),
      forwardAsync cfg sid script max_turn msg = forward cfg sid script max_turn msg) ∧
    (∀ (name : String) (hooks : List Hook) (items : List ForwardItem)
        (input : List AgentMessage),
      mixinCallAsync name hooks items input = mixinCall name hooks items input) := by
  refine ⟨fun cfg sid script fuel turn msg => forwardLoopAsync_eq_forwardLoop _ _ _ _ _ _,
    fun cfg sid script n msg => forwardLoopAsync_eq_forwardLoop _ _ _ _ _ _,
    fun name hooks items input => ?_⟩
  simp only [mixinCallAsync, mixinCall, relayLoopAsync_eq]

/-! ### Status bounds -/

theorem assignStatus_bounds (last : Int) (m : AgentMessage)
    (h1 : 1 ≤ last) (h2 : last ≤ 7) :
    1 ≤ assignStatus last m ∧ assignStatus last m ≤ 7 := by
  unfold assignStatus
  simp only [AgentStatusCode.CODING, AgentStatusCode.PLUGIN_START,
    AgentStatusCode.STREAM_ING]
  split_ifs <;> omega

theorem runInner_bounds :
    ∀ (inner : List AgentMessage) (last : Int) (msg : AgentMessage),
      1 ≤ last → last ≤ 7 →
      (∀ e ∈ (runInner last msg inner).events,
        1 ≤ e.stream_state ∧ e.stream_state ≤ 7) ∧
      1 ≤ (runInner last msg inner).last ∧ (runInner last msg inner).last ≤ 7
  | [], last, msg => by
    intro h1 h2
    exact ⟨by simp [runInner], h1, h2⟩
  | m :: rest, last, msg => by
    intro h1 h2
    have hb := assignStatus_bounds last m h1 h2
    have ih := runInner_bounds rest (assignStatus last m)
      { m with stream_state := assignStatus last m } hb.1 hb.2
    simp only [runInner]
    refine ⟨?_, ih.2⟩
    intro e he
    rcases List.mem_cons.mp he with he | he
    · subst he; exact hb
    · exact ih.1 e he

theorem runInner_final_state :
    ∀ (inner : List AgentMessage) (last : Int) (msg : AgentMessage), inner ≠ [] →
      (runInner last msg inner).final.stream_state = (runInner last msg inner).last
  | [], _, _, h => absurd rfl h
  | m :: rest, last, msg, _ => by
    cases rest with
    | nil => rfl
    | cons x xs =>
      exact runInner_final_state (x :: xs) (assignStatus last m)
        { m with stream_state := assignStatus last m } (List.cons_ne_nil x xs)

theorem runInner_final_formatted :
    ∀ (inner : List AgentMessage) (last : Int) (msg : AgentMessage), inner ≠ [] →
      ∃ m ∈ inner, (runInner last msg inner).final.formatted = m.formatted
  | [], _, _, h => absurd rfl h
  | m :: rest, last, msg, _ => by
    cases rest with
    | nil => exact ⟨m, List.mem_cons_self m [], rfl⟩
    | cons x xs =>
      obtain ⟨m', hm', h⟩ := runInner_final_formatted (x :: xs) (assignStatus last m)
        { m with stream_state := assignStatus last m } (List.cons_ne_nil x xs)
      exact ⟨m', List.mem_cons_of_mem m hm', h⟩

/-- C9 counterexample: when the first inner event already carries a truthy
tool type with generation ended, the carry-over assigns `SESSION_READY`
and the orchestrator yields the event with that status. -/
theorem session_ready_yield_counterexample :
    ((forward ⟨fun _ => true, fun _ => none⟩ 0 (fun _ => [cexCarryEvent]) 1
        scenUser).events.map (fun e => e.stream_state))
      = [AgentStatusCode.SESSION_READY, AgentStatusCode.END] := by
  decide

/-- C9 (amended): every yielded event carries an orchestrator-assigned
status — one of `STREAM_ING`, `CODING`, `PLUGIN_START`, a carried-over or
incremented prior status, or `END`, all lying in the `AgentStatusCode`
range `0..8` — never a negative raw model-stream error status; however
`SESSION_READY` itself can be yielded: a first inner event with truthy
tool type and generation ended carries `last_status = SESSION_READY`
over unchanged. -/
theorem yielded_status_range :
    (∀ m : AgentMessage, m.formatted.toolTypeTruthy = true →
      m.stream_state = ModelStatusCode.END →
      assignStatus AgentStatusCode.SESSION_READY m = AgentStatusCode.SESSION_READY) ∧
    (∀ (cfg : OrchConfig) (sid : Nat) (script : Nat → List AgentMessage)
        (fuel turn : Nat) (msg : AgentMessage),
      (∀ t, script t ≠ []) →
      ∀ e ∈ (forwardLoop cfg sid script fuel turn msg).events,
        0 ≤ e.stream_state ∧ e.stream_state ≤ 8) := by
  constructor
  · intro m h1 h2
    simp [assignStatus, h1, h2, AgentStatusCode.SESSION_READY, AgentStatusCode.CODING,
      AgentStatusCode.PLUGIN_START, ModelStatusCode.END]
  · intro cfg sid script fuel
    induction fuel with
    | zero =>
      intro turn msg hne e he
      simp [forwardLoop] at he
    | succ n ih =>
      intro turn msg hne e he
      have hb := runInner_bounds (script turn) AgentStatusCode.SESSION_READY msg
        (by decide) (by decide)
      have hfs := runInner_final_state (script turn) AgentStatusCode.SESSION_READY msg
        (hne turn)
      have hfinal :
          1 ≤ (runInner AgentStatusCode.SESSION_READY msg (script turn)).final.stream_state ∧
          (runInner AgentStatusCode.SESSION_READY msg (script turn)).final.stream_state ≤ 7 := by
        rw [hfs]; exact hb.2
      have hin : ∀ x ∈ (runInner AgentStatusCode.SESSION_READY msg (script turn)).events,
          0 ≤ x.stream_state ∧ x.stream_state ≤ 8 := by
        intro x hx
        obtain ⟨a, b⟩ := hb.1 x hx
        exact ⟨by omega, by omega⟩
      simp only [forwardLoop] at he
      split at he
      · rcases List.mem_append.mp he with h | h
        · exact hin e h
        · rcases List.mem_singleton.mp h with rfl
          exact show (0 : Int) ≤ AgentStatusCode.END ∧ AgentStatusCode.END ≤ 8 by decide
      · split at he
        · exact hin e he
        · exact hin e he
        · split at he
          · split at he
            · exact hin e he
            · rcases List.mem_append.mp he with h | h
              · exact hin e h
              · rcases List.mem_cons.mp h with rfl | h
                · dsimp only
                  omega
                · exact ih (turn + 1) _ hne e h
          · rcases List.mem_append.mp he with h | h
            · exact hin e h
            · rcases List.mem_cons.mp h with rfl | h
              · exact show (0 : Int) ≤ AgentStatusCode.STREAM_ING ∧
                  AgentStatusCode.STREAM_ING ≤ 8 by decide
              · exact ih (turn + 1) _ hne e h

/-- Witness for C9 (amended): the range bound evaluated on the
`SESSION_READY`-carrying event yielded in the counterexample run. -/
theorem yielded_status_range_witness :
    (0 : Int) ≤ ({ cexCarryEvent with stream_state := AgentStatusCode.SESSION_READY
        } : AgentMessage).stream_state ∧
    ({ cexCarryEvent with stream_state := AgentStatusCode.SESSION_READY
        } : AgentMessage).stream_state ≤ 8 :=
  yielded_status_range.2 ⟨fun _ => true, fun _ => none⟩ 0 (fun _ => [cexCarryEvent]) 1 0
    scenUser (fun _ => List.cons_ne_nil _ _) _ (by decide)

/-- C7: the orchestration always terminates within `max_turn` turns; and on
a run where the finish condition never holds, every turn's inner stream is
nonempty, every inner event's structured fields are a mapping holding the
`tool_type` key, and every executor lookup succeeds, the loop enters
exactly `max_turn` turns and then the event sequence simply ends — the
outcome is the silent exhaustion of the `range` loop, with no `END`-status
event and no error. -/
theorem turn_limit_exhaustion :
    (∀ (cfg : OrchConfig) (sid : Nat) (script : Nat → List AgentMessage)
        (fuel turn : Nat) (msg : AgentMessage),
      (forwardLoop cfg sid script fuel turn msg).turnsUsed ≤ fuel) ∧
    (∀ (cfg : OrchConfig) (sid : Nat) (script : Nat → List AgentMessage)
        (fuel turn : Nat) (msg : AgentMessage),
      (∀ m, cfg.finish_condition m = false) →
      (∀ t, script t ≠ []) →
      (∀ t m, m ∈ script t → ∃ v, m.formatted = Formatted.dict (ToolField.val v)) →
      (∀ nm, (cfg.attrs nm).isSome = true) →
      (forwardLoop cfg sid script fuel turn msg).outcome = Outcome.exhausted ∧
      (forwardLoop cfg sid script fuel turn msg).turnsUsed = fuel ∧
      ∀ e ∈ (forwardLoop cfg sid script fuel turn msg).events,
        e.stream_state ≠ AgentStatusCode.END) := by
  constructor
  · intro cfg sid script fuel
    induction fuel with
    | zero => intro turn msg; exact Nat.le_refl 0
    | succ n ih =>
      intro turn msg
      simp only [forwardLoop]
      split
      · dsimp only; omega
      · split
        · dsimp only; omega
        · dsimp only; omega
        · split
          · split
            · dsimp only; omega
            · dsimp only
              exact Nat.succ_le_succ (ih (turn + 1) _)
          · dsimp only
            exact Nat.succ_le_succ (ih (turn + 1) _)
  · intro cfg sid script fuel
    induction fuel with
    | zero =>
      intro turn msg h1 h2 h3 h4
      exact ⟨rfl, rfl, by intro e he; simp [forwardLoop] at he⟩
    | succ n ih =>
      intro turn msg h1 h2 h3 h4
      obtain ⟨fm, hfm, hfe⟩ := runInner_final_formatted (script turn)
        AgentStatusCode.SESSION_READY msg (h2 turn)
      obtain ⟨v, hv⟩ := h3 turn fm hfm
      have hvfmt :
          (runInner AgentStatusCode.SESSION_READY msg (script turn)).final.formatted
            = Formatted.dict (ToolField.val v) := hfe.trans hv
      have hb := runInner_bounds (script turn) AgentStatusCode.SESSION_READY msg
        (by decide) (by decide)
      have hfs := runInner_final_state (script turn) AgentStatusCode.SESSION_READY msg
        (h2 turn)
      have hfinal :
          1 ≤ (runInner AgentStatusCode.SESSION_READY msg (script turn)).final.stream_state := by
        rw [hfs]; exact hb.2.1
      have hinne :
          ∀ x ∈ (runInner AgentStatusCode.SESSION_READY msg (script turn)).events,
            x.stream_state ≠ AgentStatusCode.END := by
        intro x hx
        have := (hb.1 x hx).1
        simp only [AgentStatusCode.END]
        omega
      simp only [forwardLoop, h1, Bool.false_eq_true, if_false, hvfmt]
      by_cases ht : (ToolField.val v).truthy = true
      · simp only [ht, if_true]
        obtain ⟨ex, hex⟩ := Option.isSome_iff_exists.mp (h4 (v.getD "" ++ "_executor"))
        simp only [hex]
        have IH := ih (turn + 1)
          ⟨(ex (runInner AgentStatusCode.SESSION_READY msg (script turn)).final sid).sender,
            (ex (runInner AgentStatusCode.SESSION_READY msg (script turn)).final sid).content,
            (ex (runInner AgentStatusCode.SESSION_READY msg (script turn)).final sid).formatted,
            (runInner AgentStatusCode.SESSION_READY msg (script turn)).final.stream_state + 1⟩
          h1 h2 h3 h4
        refine ⟨IH.1, ?_, ?_⟩
        · dsimp only
          have h21 := IH.2.1
          omega
        · intro e he
          rcases List.mem_append.mp he with h | h
          · exact hinne e h
          · rcases List.mem_cons.mp h with rfl | h
            · dsimp only
              simp only [AgentStatusCode.END]
              omega
            · exact IH.2.2 e h
      · rw [Bool.not_eq_true] at ht
        simp only [ht, Bool.false_eq_true, if_false]
        have IH := ih (turn + 1)
          ⟨(runInner AgentStatusCode.SESSION_READY msg (script turn)).final.sender,
            (runInner AgentStatusCode.SESSION_READY msg (script turn)).final.content,
            Formatted.dict (ToolField.val v), AgentStatusCode.STREAM_ING⟩
          h1 h2 h3 h4
        refine ⟨IH.1, ?_, ?_⟩
        · dsimp only
          have h21 := IH.2.1
          omega
        · intro e he
          rcases List.mem_append.mp he with h | h
          · exact hinne e h
          · rcases List.mem_cons.mp h with rfl | h
            · exact show AgentStatusCode.STREAM_ING ≠ AgentStatusCode.END by decide
            · exact IH.2.2 e h

/-- Witness for C7: a registry with a universal executor and a script of
falsy-tool-type events runs out of `max_turn = 2` silently. -/
theorem turn_limit_exhaustion_witness :
    (forwardLoop ⟨fun _ => false, fun _ => some scenExec⟩ 0 (fun _ => [cexFalsyEvent]) 2 0
        scenUser).outcome = Outcome.exhausted ∧
    (forwardLoop ⟨fun _ => false, fun _ => some scenExec⟩ 0 (fun _ => [cexFalsyEvent]) 2 0
        scenUser).turnsUsed = 2 :=
  ⟨(turn_limit_exhaustion.2 ⟨fun _ => false, fun _ => some scenExec⟩ 0
      (fun _ => [cexFalsyEvent]) 2 0 scenUser (fun _ => rfl) (fun _ => List.cons_ne_nil _ _)
      (fun t m hm => ⟨none, by rcases List.mem_singleton.mp hm with rfl; rfl⟩)
      (fun _ => rfl)).1,
    (turn_limit_exhaustion.2 ⟨fun _ => false, fun _ => some scenExec⟩ 0
      (fun _ => [cexFalsyEvent]) 2 0 scenUser (fun _ => rfl) (fun _ => List.cons_ne_nil _ _)
      (fun t m hm => ⟨none, by rcases List.mem_singleton.mp hm with rfl; rfl⟩)
      (fun _ => rfl)).2.1⟩

end MindSearch
